import Mathlib

/-!
Verification of the lanchester-v1 tick-orchestration core: a shallow
embedding of the DirectorAgent / ForceLeader / SubAgent hierarchy and the
DDIL feed degrader, with theorems settling the behavioral claims about
event ordering, failure isolation, command dispatch and state invariants.

External effects are modelled explicitly: the decision service is an
`Except String String` oracle (normal reply or caught exception message),
the random number generator is a function parameter, and an unexpected
exception inside a unit's tick logic is an oracle outcome of its own.
-/

/-! ### Character-list string helpers (Python string operations) -/

/-- Python `needle == hay[:len(needle)]`: the first list starts the second. -/
def charsHasPre : List Char → List Char → Bool
  | [], _ => true
  | _ :: _, [] => false
  | a :: as, b :: bs => a == b && charsHasPre as bs

/-- Python `needle in hay`: substring containment on character lists. -/
def charsHasSub (needle : List Char) : List Char → Bool
  | [] => charsHasPre needle []
  | b :: bs => charsHasPre needle (b :: bs) || charsHasSub needle bs

/-- Python `needle in hay` on strings. -/
def strContains (hay needle : String) : Bool :=
  charsHasSub needle.data hay.data

/-- Python `s.lower()`. -/
def pyLower (s : String) : String :=
  ⟨s.data.map Char.toLower⟩

/-- Python `s.startswith(p)`. -/
def pyStartsWith (s p : String) : Bool :=
  charsHasPre p.data s.data

/-! ### SubAgent (agents/sub_agent.py) -/

/-- State of one `SubAgent`: identity, role, grid position, status tag and
append-only context history. -/
structure SubAgent where
  id : String
  role : String
  position : Int × Int
  status : String
  context : List String
  deriving Repr, DecidableEq

/-- `SubAgent.__init__`: status starts as Ready, context empty; the random
starting position is passed in explicitly. -/
def SubAgent.init (id role : String) (px py : Int) : SubAgent :=
  { id := id, role := role, position := (px, py), status := "Ready", context := [] }

/-- The decision text after the try/except around the OpenAI call in
`SubAgent.process_tick`: the reply on success, else the substituted
fixed-format error string. -/
def decisionText (llm : Except String String) : String :=
  match llm with
  | Except.ok c => c
  | Except.error e => "Error generating decision: " ++ e

/-- The movement test of `SubAgent.process_tick`:
`"advance" in decision_lower or "move" in decision_lower`. -/
def hasMoveToken (decision : String) : Bool :=
  strContains (pyLower decision) "advance" || strContains (pyLower decision) "move"

/-- Python `str((x, y))` for an integer pair. -/
def posStr (p : Int × Int) : String :=
  "(" ++ toString p.1 ++ ", " ++ toString p.2 ++ ")"

/-- The movement annotation appended to the decision text when movement runs. -/
def moveNote (old new : Int × Int) : String :=
  " [Movement: position updated from " ++ posStr old ++ " to " ++ posStr new ++ "]."

/-- `SubAgent.process_tick`: the decision-service result and the drawn
`random.randint(1, 10)` delta are oracle parameters. Returns the updated
agent and the event string. -/
def SubAgent.process_tick (a : SubAgent) (llm : Except String String) (delta : Int) :
    SubAgent × String :=
  if hasMoveToken (decisionText llm) then
    ({ a with
        position := (a.position.1 + delta, a.position.2 + delta),
        context := a.context ++ [decisionText llm ++
          moveNote a.position (a.position.1 + delta, a.position.2 + delta)] },
      a.id ++ " decision: " ++ (decisionText llm ++
        moveNote a.position (a.position.1 + delta, a.position.2 + delta)))
  else
    ({ a with context := a.context ++ [decisionText llm ++ " [No movement executed]."] },
      a.id ++ " decision: " ++ (decisionText llm ++ " [No movement executed]."))

/-- `SubAgent.update_context`: append one message to the context. -/
def SubAgent.update_context (a : SubAgent) (message : String) : SubAgent :=
  { a with context := a.context ++ [message] }

example : ((SubAgent.init "Red_Squad_1" "Squad Commander" 2 3).process_tick
    (Except.ok "Move north") 4).1.position = (6, 7) := by decide

example : ((SubAgent.init "Red_Squad_1" "Squad Commander" 2 3).process_tick
    (Except.ok "Hold") 4).2 =
    "Red_Squad_1 decision: Hold [No movement executed]." := by decide

/-! ### ForceLeader (agents/force_leader.py) -/

/-- Outcome of one subordinate's `process_tick` call as seen by the
aggregating ForceLeader: either the call returns normally (with the
decision-service result and the drawn movement delta as oracle data), or
the call itself raises an exception with the given message. -/
inductive SubOutcome where
  | ok (llm : Except String String) (delta : Int)
  | raise (msg : String)
  deriving Repr

/-- State of one `ForceLeader`: side identity, configured unit count,
objective, ordered subordinates and the force-level event log. -/
structure ForceLeader where
  team_color : String
  num_units : Nat
  objective : String
  sub_agents : List SubAgent
  event_logs : List String
  deriving Repr, DecidableEq

/-- `ForceLeader.__init__`: creates `num_units` subordinates with ids
`team_color ++ "_Squad_" ++ i` for `i = 1 .. num_units`; their random
starting positions are supplied by the `pos` oracle. -/
def ForceLeader.init (team_color : String) (num_units : Nat) (objective : String)
    (pos : Nat → Int × Int) : ForceLeader :=
  { team_color := team_color, num_units := num_units, objective := objective,
    sub_agents := (List.range num_units).map (fun i =>
      SubAgent.init (team_color ++ "_Squad_" ++ toString (i + 1)) "Squad Commander"
        (pos (i + 1)).1 (pos (i + 1)).2),
    event_logs := [] }

/-- The subordinate loop of `ForceLeader.process_tick`, started at oracle
index `i`: on a normal return the event string is appended only if truthy
(Python `elif agent_events:`); on an exception the substitute error event
naming the subordinate is appended and iteration continues. Returns the
updated subordinates and the collected events. -/
def runSubsFrom (outcome : Nat → SubOutcome) :
    List SubAgent → Nat → List SubAgent × List String
  | [], _ => ([], [])
  | a :: as, i =>
    let head : SubAgent × List String :=
      match outcome i with
      | SubOutcome.ok llm delta =>
        let r := a.process_tick llm delta
        (r.1, if r.2 = "" then [] else [r.2])
      | SubOutcome.raise msg =>
        (a, ["Error processing tick for " ++ a.id ++ ": " ++ msg])
    let rest := runSubsFrom outcome as (i + 1)
    (head.1 :: rest.1, head.2 ++ rest.2)

/-- The leader event produced by `generate_decision_summary`: the reply on
success, else the substituted inline error string, prefixed with the side. -/
def leaderEvent (team_color : String) (reply : Except String String) : String :=
  team_color ++ " Leader Decision: " ++
    (match reply with
     | Except.ok s => s
     | Except.error e => "Error generating decision summary: " ++ e)

/-- `ForceLeader.process_tick`: run every subordinate (isolated per the
outcome oracle), append the leader event last, extend the force log with
this tick's events, and return the updated leader with the events. -/
def ForceLeader.process_tick (fl : ForceLeader) (outcome : Nat → SubOutcome)
    (reply : Except String String) : ForceLeader × List String :=
  let r := runSubsFrom outcome fl.sub_agents 0
  let tick_events := r.2 ++ [leaderEvent fl.team_color reply]
  ({ fl with sub_agents := r.1, event_logs := fl.event_logs ++ tick_events },
    tick_events)

/-- `ForceLeader.receive_direct_order`: log the order at force level, then
forward it to every subordinate via `update_context`. -/
def ForceLeader.receive_direct_order (fl : ForceLeader) (order : String) : ForceLeader :=
  { fl with
    event_logs := fl.event_logs ++ [fl.team_color ++ " Leader received direct order: " ++ order],
    sub_agents := fl.sub_agents.map (fun a =>
      a.update_context ("Received direct order: " ++ order)) }

/-! ### DirectorAgent (agents/director.py) -/

/-- Outcome of one force's `process_tick` call as seen by the Director:
either the call returns normally (with the per-subordinate outcome oracle
and the leader's decision-service reply), or it raises with a message. -/
inductive ForceOutcome where
  | ok (outcome : Nat → SubOutcome) (reply : Except String String)
  | raise (msg : String)

/-- State of the `DirectorAgent`: scenario metadata, the cumulative event
log, both forces, and the tick counter of the global state. -/
structure DirectorAgent where
  scenario_name : String
  location : String
  situation : String
  num_units : Nat
  event_logs : List String
  red_force : ForceLeader
  blue_force : ForceLeader
  tick : Nat

/-- `DirectorAgent.__init__`: tick 0, empty log, Red force with objective
Engage Blue and Blue force with objective Defend Position; the subordinate
starting positions are supplied by oracles. -/
def DirectorAgent.init (scenario_name location situation : String) (num_units : Nat)
    (posR posB : Nat → Int × Int) : DirectorAgent :=
  { scenario_name := scenario_name, location := location, situation := situation,
    num_units := num_units, event_logs := [],
    red_force := ForceLeader.init "Red" num_units "Engage Blue" posR,
    blue_force := ForceLeader.init "Blue" num_units "Defend Position" posB,
    tick := 0 }

/-- One force step inside `orchestrate_simulation`: the try/except around
`process_tick`, substituting a single descriptive error event on failure. -/
def runForce (fl : ForceLeader) (fo : ForceOutcome) (label : String) :
    ForceLeader × List String :=
  match fo with
  | ForceOutcome.ok outcome reply => fl.process_tick outcome reply
  | ForceOutcome.raise msg => (fl, ["Error in " ++ label ++ " tick processing: " ++ msg])

/-- `DirectorAgent.orchestrate_simulation`: increment the tick, open with
the tick marker, process Red then Blue (each isolated), extend the
cumulative log with this tick's events and return them. -/
def DirectorAgent.orchestrate_simulation (d : DirectorAgent)
    (redO blueO : ForceOutcome) : DirectorAgent × List String :=
  let tick := d.tick + 1
  let red := runForce d.red_force redO "Red Force"
  let blue := runForce d.blue_force blueO "Blue Force"
  let events_this_tick :=
    ("--- Tick " ++ toString tick ++ " ---") :: (red.2 ++ blue.2)
  ({ d with
      tick := tick, red_force := red.1, blue_force := blue.1,
      event_logs := d.event_logs ++ events_this_tick },
    events_this_tick)

/-- The backward scan of `get_latest_feed`: the suffix of the log starting
at the last line that starts with the tick marker, if any. -/
def latestFrom : List String → Option (List String)
  | [] => none
  | l :: ls =>
    match latestFrom ls with
    | some s => some s
    | none => if pyStartsWith l "--- Tick" then some (l :: ls) else none

/-- `DirectorAgent.get_latest_feed`: sentinel on an empty log, else the
newline-join of the slice from the last tick marker (the whole log when no
marker exists). -/
def DirectorAgent.get_latest_feed (d : DirectorAgent) : String :=
  if d.event_logs = [] then "No events logged yet."
  else
    match latestFrom d.event_logs with
    | some latest_events => String.intercalate "\n" latest_events
    | none => String.intercalate "\n" d.event_logs

/-- `DirectorAgent.receive_user_command`: case-insensitive dispatch on the
command text; every branch appends exactly one line to the Director's log. -/
def DirectorAgent.receive_user_command (d : DirectorAgent) (command : String) :
    DirectorAgent :=
  if pyLower command = "pause" then
    { d with event_logs := d.event_logs ++ ["Simulation paused by user command."] }
  else if pyLower command = "rewind" then
    { d with event_logs := d.event_logs ++ ["Simulation rewound by user command."] }
  else if pyLower command = "fast forward" then
    { d with event_logs := d.event_logs ++ ["Simulation fast-forwarded by user command."] }
  else if strContains (pyLower command) "redirect" then
    if strContains (pyLower command) "red" then
      { d with
          red_force := d.red_force.receive_direct_order command,
          event_logs := d.event_logs ++ ["Red Force received command: " ++ command] }
    else if strContains (pyLower command) "blue" then
      { d with
          blue_force := d.blue_force.receive_direct_order command,
          event_logs := d.event_logs ++ ["Blue Force received command: " ++ command] }
    else
      { d with event_logs :=
          d.event_logs ++ ["Unrecognized redirection command: " ++ command] }
  else
    { d with event_logs := d.event_logs ++ ["Command not recognized: " ++ command] }

/-- Iterated `orchestrate_simulation`, with a per-tick outcome oracle. -/
def advanceK (d : DirectorAgent) (oracle : Nat → ForceOutcome × ForceOutcome) :
    Nat → DirectorAgent
  | 0 => d
  | k + 1 =>
    let d' := advanceK d oracle k
    (d'.orchestrate_simulation (oracle k).1 (oracle k).2).1

/-! ### DDIL feed degrader (simulation/ddil_emulation.py) -/

/-- Python `raw_feed.split(newline)` on character lists: split at every
newline, keeping empty pieces. -/
def splitNl : List Char → List (List Char)
  | [] => [[]]
  | c :: cs =>
    match splitNl cs with
    | [] => [[]]
    | l :: ls => if c = '\n' then [] :: l :: ls else (c :: l) :: ls

/-- Python `sep.join(lines)` with a newline separator, on character lists. -/
def joinNlChars : List (List Char) → List Char
  | [] => []
  | [l] => l
  | l :: l2 :: ls => l ++ '\n' :: joinNlChars (l2 :: ls)

/-- Python `line.split()`: whitespace-delimited tokens, empties dropped. -/
def wsTokens : List Char → List (List Char)
  | [] => []
  | c :: cs =>
    let r := wsTokens cs
    if c.isWhitespace then r
    else
      match cs with
      | [] => [[c]]
      | d :: _ =>
        if d.isWhitespace then [c] :: r
        else
          match r with
          | [] => [[c]]
          | t :: ts => (c :: t) :: ts

/-- Python `" ".join(words)` on character lists. -/
def joinSpace : List (List Char) → List Char
  | [] => []
  | [l] => l
  | l :: l2 :: ls => l ++ ' ' :: joinSpace (l2 :: ls)

/-- The obfuscation step of `process_feed`: replace every whitespace token
of length at least 5 by the fixed redaction token, rejoin with spaces. -/
def obfuscateLine (l : List Char) : List Char :=
  joinSpace ((wsTokens l).map (fun word =>
    if word.length < 5 then word else ['?', '?', '?']))

/-- `drop_probability = min(DDIL_LEVEL * 0.1, 0.5)`, over the rationals. -/
def drop_probability (level : ℤ) : ℚ :=
  min ((level : ℚ) * (1 / 10)) (1 / 2)

/-- The per-line loop of `process_feed`, threading the random draws as an
oracle indexed from `i`: each line first draws against the drop
probability (dropped lines consume one draw), then a surviving line draws
again (same probability) to decide obfuscation. -/
def processLines (p : ℚ) (rng : Nat → ℚ) : List (List Char) → Nat → List (List Char)
  | [], _ => []
  | l :: ls, i =>
    if rng i < p then processLines p rng ls (i + 1)
    else
      (if rng (i + 1) < p then obfuscateLine l else l) ::
        processLines p rng ls (i + 2)

/-- `process_feed`: split the raw feed into lines, drop/obfuscate each line
per the random oracle, and rejoin the survivors with newlines. -/
def process_feed (level : ℤ) (rng : Nat → ℚ) (raw_feed : String) : String :=
  ⟨joinNlChars (processLines (drop_probability level) rng (splitNl raw_feed.data) 0)⟩

/-! ### General lemmas about the string helpers -/

theorem charsHasPre_refl (xs : List Char) : charsHasPre xs xs = true := by
  induction xs with
  | nil => rfl
  | cons a as ih => simp [charsHasPre, ih]

theorem charsHasPre_append_right (xs ys : List Char) :
    charsHasPre xs (xs ++ ys) = true := by
  induction xs with
  | nil => rfl
  | cons a as ih => simp [charsHasPre, ih]

theorem charsHasSub_append_self (preceding needle : List Char) :
    charsHasSub needle (preceding ++ needle) = true := by
  induction preceding with
  | nil =>
    cases needle with
    | nil => rfl
    | cons b bs => simp [charsHasSub, charsHasPre_refl]
  | cons c cs ih => simp [charsHasSub, ih]

theorem charsHasPre_of_append (xs ys hay : List Char)
    (h : charsHasPre (xs ++ ys) hay = true) : charsHasPre xs hay = true := by
  induction xs generalizing hay with
  | nil => rfl
  | cons a as ih =>
    cases hay with
    | nil => simp [charsHasPre] at h
    | cons b bs =>
      simp only [List.cons_append, charsHasPre, Bool.and_eq_true] at h ⊢
      exact ⟨h.1, ih bs h.2⟩

theorem charsHasSub_of_append (xs ys hay : List Char)
    (h : charsHasSub (xs ++ ys) hay = true) : charsHasSub xs hay = true := by
  induction hay with
  | nil =>
    simp only [charsHasSub] at h ⊢
    exact charsHasPre_of_append xs ys [] h
  | cons b bs ih =>
    simp only [charsHasSub, Bool.or_eq_true] at h ⊢
    cases h with
    | inl h => exact Or.inl (charsHasPre_of_append xs ys (b :: bs) h)
    | inr h => exact Or.inr (ih h)

/-- Any string containing "redirect" contains "red": the side test
`"red" in cmd_lower` can never fail once `"redirect" in cmd_lower`
succeeded, so the "blue" and "unrecognized redirection" branches of
`receive_user_command` are unreachable. -/
theorem strContains_red_of_redirect (s : String)
    (h : strContains s "redirect" = true) : strContains s "red" = true := by
  have hsplit : "redirect".data = "red".data ++ "irect".data := by decide
  unfold strContains at h ⊢
  rw [hsplit] at h
  exact charsHasSub_of_append _ _ _ h

/-- A produced decision event is never the empty string, so the Python
truthiness test in the ForceLeader loop never drops it. -/
theorem process_tick_event_ne_empty (a : SubAgent) (llm : Except String String)
    (delta : Int) : (a.process_tick llm delta).2 ≠ "" := by
  have key : ∀ s t : String, s ++ " decision: " ++ t ≠ "" := by
    intro s t h
    have hl := congrArg String.length h
    rw [String.length_append, String.length_append] at hl
    have h11 : (" decision: ").length = 11 := by decide
    have h0 : ("" : String).length = 0 := rfl
    rw [h11, h0] at hl
    omega
  unfold SubAgent.process_tick
  split
  · exact key _ _
  · exact key _ _

/-! ### C6 and C10: SubAgent behavior -/

/-- C6: in `SubAgent.process_tick`, a decision containing a movement token
moves both coordinates by the same drawn delta (within the randint bounds
1..10) and appends the movement annotation with old and new position;
otherwise the position is unchanged and the no-movement annotation is
appended. Either way the annotated decision is appended to the context and
the returned event is the id followed by the decision. -/
theorem sub_agent_process_tick_movement (a : SubAgent) (llm : Except String String)
    (delta : Int) (h1 : 1 ≤ delta) (h2 : delta ≤ 10) :
    (hasMoveToken (decisionText llm) = true →
      (a.process_tick llm delta).1.position = (a.position.1 + delta, a.position.2 + delta) ∧
      a.position.1 + 1 ≤ (a.process_tick llm delta).1.position.1 ∧
      (a.process_tick llm delta).1.position.1 ≤ a.position.1 + 10 ∧
      a.position.2 + 1 ≤ (a.process_tick llm delta).1.position.2 ∧
      (a.process_tick llm delta).1.position.2 ≤ a.position.2 + 10 ∧
      (a.process_tick llm delta).1.context = a.context ++
        [decisionText llm ++ moveNote a.position (a.position.1 + delta, a.position.2 + delta)] ∧
      (a.process_tick llm delta).2 = a.id ++ " decision: " ++
        (decisionText llm ++ moveNote a.position (a.position.1 + delta, a.position.2 + delta))) ∧
    (hasMoveToken (decisionText llm) = false →
      (a.process_tick llm delta).1.position = a.position ∧
      (a.process_tick llm delta).1.context = a.context ++
        [decisionText llm ++ " [No movement executed]."] ∧
      (a.process_tick llm delta).2 = a.id ++ " decision: " ++
        (decisionText llm ++ " [No movement executed].")) := by
  constructor
  · intro hmove
    simp only [SubAgent.process_tick, hmove, if_true]
    and_intros <;> first | trivial | (simp; omega)
  · intro hmove
    simp only [SubAgent.process_tick, hmove, Bool.false_eq_true, if_false]
    and_intros <;> trivial

/-- C6 witness: a concrete moving tick. -/
theorem sub_agent_process_tick_movement_witness :
    (1 : Int) ≤ 3 ∧ (3 : Int) ≤ 10 ∧
    hasMoveToken (decisionText (Except.ok "Move out")) = true ∧
    ((SubAgent.init "A" "R" 0 0).process_tick (Except.ok "Move out") 3).1.position = (3, 3) := by
  have h := (sub_agent_process_tick_movement (SubAgent.init "A" "R" 0 0)
    (Except.ok "Move out") 3 (by decide) (by decide)).1 (by decide)
  refine ⟨by decide, by decide, by decide, ?_⟩
  rw [h.1]
  decide

/-! ### Expected per-subordinate events (specification side) -/

/-- The event one subordinate contributes to a tick: its decision event on
a normal return, the substitute error event naming it on an exception. -/
def subEventFor (a : SubAgent) : SubOutcome → String
  | SubOutcome.ok llm delta => (a.process_tick llm delta).2
  | SubOutcome.raise msg => "Error processing tick for " ++ a.id ++ ": " ++ msg

/-- Spec-side event list for a tick: exactly one event per subordinate, in
creation order, never dropping any. -/
def expectedSubEvents (outcome : Nat → SubOutcome) : List SubAgent → Nat → List String
  | [], _ => []
  | a :: as, i => subEventFor a (outcome i) :: expectedSubEvents outcome as (i + 1)

theorem expectedSubEvents_length (outcome : Nat → SubOutcome) :
    ∀ (as : List SubAgent) (i : Nat),
      (expectedSubEvents outcome as i).length = as.length := by
  intro as
  induction as with
  | nil => intro i; rfl
  | cons a as ih => intro i; simp [expectedSubEvents, ih]

theorem expectedSubEvents_get? (outcome : Nat → SubOutcome) :
    ∀ (as : List SubAgent) (i j : Nat) (a : SubAgent), as.get? j = some a →
      (expectedSubEvents outcome as i).get? j = some (subEventFor a (outcome (i + j))) := by
  intro as
  induction as with
  | nil => intro i j a h; simp at h
  | cons b bs ih =>
    intro i j a h
    cases j with
    | zero =>
      simp only [List.get?] at h
      cases h
      rfl
    | succ j =>
      rw [show expectedSubEvents outcome (b :: bs) i =
          subEventFor b (outcome i) :: expectedSubEvents outcome bs (i + 1) from rfl]
      simp only [List.get?] at h ⊢
      have harith : i + 1 + j = i + (j + 1) := by omega
      have := ih (i + 1) j a h
      rw [harith] at this
      exact this

/-- The implementation loop of `ForceLeader.process_tick` produces exactly
the spec-side event list: the Python truthiness filter never drops an
event, and a raised exception never aborts the remaining subordinates. -/
theorem runSubsFrom_events (outcome : Nat → SubOutcome) :
    ∀ (as : List SubAgent) (i : Nat),
      (runSubsFrom outcome as i).2 = expectedSubEvents outcome as i := by
  intro as
  induction as with
  | nil => intro i; rfl
  | cons a as ih =>
    intro i
    simp only [runSubsFrom, expectedSubEvents]
    cases h : outcome i with
    | ok llm delta =>
      simp only [subEventFor, if_neg (process_tick_event_ne_empty a llm delta)]
      simp [ih]
    | raise msg => simp [subEventFor, ih]

/-! ### C3: per-subordinate failure isolation in ForceLeader -/

/-- C3: for any pattern of subordinate exceptions, `ForceLeader.process_tick`
returns one event per subordinate in creation order — the substitute error
event naming the subordinate whenever its call raised — followed by the
leader event last; being a total function it never raises itself. -/
theorem force_leader_failure_isolation (fl : ForceLeader) (outcome : Nat → SubOutcome)
    (reply : Except String String) :
    (fl.process_tick outcome reply).2 =
      expectedSubEvents outcome fl.sub_agents 0 ++ [leaderEvent fl.team_color reply] ∧
    (fl.process_tick outcome reply).2.length = fl.sub_agents.length + 1 ∧
    (∀ (j : Nat) (a : SubAgent) (msg : String), fl.sub_agents.get? j = some a →
      outcome j = SubOutcome.raise msg →
      (fl.process_tick outcome reply).2.get? j =
        some ("Error processing tick for " ++ a.id ++ ": " ++ msg)) := by
  have hev : (fl.process_tick outcome reply).2 =
      expectedSubEvents outcome fl.sub_agents 0 ++ [leaderEvent fl.team_color reply] := by
    simp only [ForceLeader.process_tick]
    rw [runSubsFrom_events]
  refine ⟨hev, ?_, ?_⟩
  · rw [hev]
    simp [expectedSubEvents_length]
  · intro j a msg hj houtcome
    rw [hev]
    have hlen : j < (expectedSubEvents outcome fl.sub_agents 0).length := by
      rw [expectedSubEvents_length]
      exact List.get?_eq_some.mp hj |>.choose
    rw [List.get?_append hlen]
    have := expectedSubEvents_get? outcome fl.sub_agents 0 j a hj
    simp only [Nat.zero_add] at this
    rw [this, houtcome]
    rfl

/-- C3 witness: two subordinates, the first raising; its error event is at
index 0, the second subordinate still reports, the leader event is last. -/
theorem force_leader_failure_isolation_witness :
    ((ForceLeader.init "Red" 2 "Engage Blue" (fun _ => (0, 0))).sub_agents.get? 0 =
      some (SubAgent.init "Red_Squad_1" "Squad Commander" 0 0)) ∧
    ((fun i : Nat => if i = 0 then SubOutcome.raise "boom" else
        SubOutcome.ok (Except.ok "Hold") 1) 0 = SubOutcome.raise "boom") ∧
    (((ForceLeader.init "Red" 2 "Engage Blue" (fun _ => (0, 0))).process_tick
        (fun i => if i = 0 then SubOutcome.raise "boom" else
          SubOutcome.ok (Except.ok "Hold") 1) (Except.ok "Press on")).2.get? 0 =
      some "Error processing tick for Red_Squad_1: boom") ∧
    (((ForceLeader.init "Red" 2 "Engage Blue" (fun _ => (0, 0))).process_tick
        (fun i => if i = 0 then SubOutcome.raise "boom" else
          SubOutcome.ok (Except.ok "Hold") 1) (Except.ok "Press on")).2.length = 3) := by
  refine ⟨by decide, rfl, ?_, ?_⟩
  · exact (force_leader_failure_isolation (ForceLeader.init "Red" 2 "Engage Blue"
      (fun _ => (0, 0))) (fun i => if i = 0 then SubOutcome.raise "boom" else
        SubOutcome.ok (Except.ok "Hold") 1) (Except.ok "Press on")).2.2 0
      (SubAgent.init "Red_Squad_1" "Squad Commander" 0 0) "boom" (by decide) rfl
  · have := (force_leader_failure_isolation (ForceLeader.init "Red" 2 "Engage Blue"
      (fun _ => (0, 0))) (fun i => if i = 0 then SubOutcome.raise "boom" else
        SubOutcome.ok (Except.ok "Hold") 1) (Except.ok "Press on")).2.1
    rw [this]
    decide

/-! ### C2: event count and ordering of one Director advance -/

/-- C2: with N subordinates per side and no call failing, one
`orchestrate_simulation` returns exactly 1 + (N+1) + (N+1) events, ordered
as tick marker, Red subordinate events in creation order, Red leader
event, Blue subordinate events in creation order, Blue leader event. -/
theorem director_advance_event_order (d : DirectorAgent) (N : Nat)
    (redLlm blueLlm : Nat → Except String String) (redDelta blueDelta : Nat → Int)
    (redReply blueReply : Except String String)
    (hr : d.red_force.sub_agents.length = N) (hb : d.blue_force.sub_agents.length = N) :
    (d.orchestrate_simulation
        (ForceOutcome.ok (fun i => SubOutcome.ok (redLlm i) (redDelta i)) redReply)
        (ForceOutcome.ok (fun i => SubOutcome.ok (blueLlm i) (blueDelta i)) blueReply)).2 =
      ("--- Tick " ++ toString (d.tick + 1) ++ " ---") ::
        (expectedSubEvents (fun i => SubOutcome.ok (redLlm i) (redDelta i))
            d.red_force.sub_agents 0 ++
          [leaderEvent d.red_force.team_color redReply] ++
          (expectedSubEvents (fun i => SubOutcome.ok (blueLlm i) (blueDelta i))
              d.blue_force.sub_agents 0 ++
            [leaderEvent d.blue_force.team_color blueReply])) ∧
    (d.orchestrate_simulation
        (ForceOutcome.ok (fun i => SubOutcome.ok (redLlm i) (redDelta i)) redReply)
        (ForceOutcome.ok (fun i => SubOutcome.ok (blueLlm i) (blueDelta i)) blueReply)).2.length =
      1 + (N + 1) + (N + 1) := by
  have hrw : (d.orchestrate_simulation
      (ForceOutcome.ok (fun i => SubOutcome.ok (redLlm i) (redDelta i)) redReply)
      (ForceOutcome.ok (fun i => SubOutcome.ok (blueLlm i) (blueDelta i)) blueReply)).2 =
      ("--- Tick " ++ toString (d.tick + 1) ++ " ---") ::
        (expectedSubEvents (fun i => SubOutcome.ok (redLlm i) (redDelta i))
            d.red_force.sub_agents 0 ++
          [leaderEvent d.red_force.team_color redReply] ++
          (expectedSubEvents (fun i => SubOutcome.ok (blueLlm i) (blueDelta i))
              d.blue_force.sub_agents 0 ++
            [leaderEvent d.blue_force.team_color blueReply])) := by
    simp only [DirectorAgent.orchestrate_simulation, runForce, ForceLeader.process_tick]
    rw [runSubsFrom_events, runSubsFrom_events]
  refine ⟨hrw, ?_⟩
  rw [hrw]
  simp [expectedSubEvents_length, hr, hb]
  try omega

/-- C2 witness: one subordinate per side on a fresh Director gives five
events in the canonical order. -/
theorem director_advance_event_order_witness :
    ((DirectorAgent.init "S" "Loc" "Sit" 1 (fun _ => (0, 0)) (fun _ => (0, 0))).red_force.sub_agents.length = 1) ∧
    ((DirectorAgent.init "S" "Loc" "Sit" 1 (fun _ => (0, 0)) (fun _ => (0, 0))).blue_force.sub_agents.length = 1) ∧
    ((DirectorAgent.init "S" "Loc" "Sit" 1 (fun _ => (0, 0)) (fun _ => (0, 0))).orchestrate_simulation
        (ForceOutcome.ok (fun i => SubOutcome.ok ((fun _ => Except.ok "Hold") i) ((fun _ => 1) i)) (Except.ok "Go"))
        (ForceOutcome.ok (fun i => SubOutcome.ok ((fun _ => Except.ok "Hold") i) ((fun _ => 1) i)) (Except.ok "Wait"))).2.length =
      1 + (1 + 1) + (1 + 1) := by
  refine ⟨by decide, by decide, ?_⟩
  exact (director_advance_event_order
    (DirectorAgent.init "S" "Loc" "Sit" 1 (fun _ => (0, 0)) (fun _ => (0, 0))) 1
    (fun _ => Except.ok "Hold") (fun _ => Except.ok "Hold") (fun _ => 1) (fun _ => 1)
    (Except.ok "Go") (Except.ok "Wait") (by decide) (by decide)).2

/-! ### C4: the tick counter -/

/-- C4: the tick counter starts at 0, every `orchestrate_simulation` call
increments it by exactly 1 — also when either force's processing raises —
so k iterated calls add exactly k; `receive_user_command` never changes
it, and `get_latest_feed` is a pure function of the state. -/
theorem tick_counter_exact (d : DirectorAgent) (redO blueO : ForceOutcome)
    (oracle : Nat → ForceOutcome × ForceOutcome) (k : Nat)
    (s l t : String) (n : Nat) (posR posB : Nat → Int × Int) (cmd : String) :
    (DirectorAgent.init s l t n posR posB).tick = 0 ∧
    (d.orchestrate_simulation redO blueO).1.tick = d.tick + 1 ∧
    (advanceK d oracle k).tick = d.tick + k ∧
    (advanceK (DirectorAgent.init s l t n posR posB) oracle k).tick = k ∧
    (d.receive_user_command cmd).tick = d.tick := by
  have hstep : ∀ (x : DirectorAgent) (rO bO : ForceOutcome),
      (x.orchestrate_simulation rO bO).1.tick = x.tick + 1 := fun _ _ _ => rfl
  have hiter : ∀ (x : DirectorAgent) (k : Nat), (advanceK x oracle k).tick = x.tick + k := by
    intro x k
    induction k with
    | zero => rfl
    | succ k ih =>
      rw [advanceK, hstep, ih]
      omega
  refine ⟨rfl, hstep d redO blueO, hiter d k, ?_, ?_⟩
  · have h0 : (DirectorAgent.init s l t n posR posB).tick = 0 := rfl
    rw [hiter, h0]
    omega
  · unfold DirectorAgent.receive_user_command
    repeat' split
    all_goals rfl

/-! ### C5: the latest-feed slice -/

theorem latestFrom_eq_none (logs : List String)
    (h : ∀ l ∈ logs, pyStartsWith l "--- Tick" = false) : latestFrom logs = none := by
  induction logs with
  | nil => rfl
  | cons l ls ih =>
    rw [latestFrom, ih (fun x hx => h x (List.mem_cons_of_mem l hx))]
    simp [h l (List.mem_cons_self l ls)]

theorem latestFrom_eq_drop :
    ∀ (logs : List String) (i : Nat) (h : i < logs.length),
      pyStartsWith (logs.get ⟨i, h⟩) "--- Tick" = true →
      (∀ (j : Nat) (hj : j < logs.length), i < j →
        pyStartsWith (logs.get ⟨j, hj⟩) "--- Tick" = false) →
      latestFrom logs = some (logs.drop i) := by
  intro logs
  induction logs with
  | nil => intro i h; simp at h
  | cons l ls ih =>
    intro i h hmark hlater
    cases i with
    | zero =>
      have hnone : latestFrom ls = none := by
        apply latestFrom_eq_none
        intro x hx
        obtain ⟨⟨j, hj⟩, rfl⟩ := List.mem_iff_get.mp hx
        exact hlater (j + 1) (by simpa using Nat.succ_lt_succ hj) (Nat.succ_pos j)
      have hl : pyStartsWith l "--- Tick" = true := hmark
      rw [latestFrom, hnone]
      show (if pyStartsWith l "--- Tick" = true then some (l :: ls) else none) =
        some ((l :: ls).drop 0)
      rw [if_pos hl]
      rfl
    | succ k =>
      have hk : k < ls.length := by
        simpa using Nat.lt_of_succ_lt_succ h
      have hsome : latestFrom ls = some (ls.drop k) := by
        apply ih k hk hmark
        intro j hj hlt
        exact hlater (j + 1) (by simpa using Nat.succ_lt_succ hj) (Nat.succ_lt_succ hlt)
      rw [latestFrom, hsome]
      rfl

/-- C5: `get_latest_feed` returns the fixed sentinel on an empty log, the
newline-join of the whole log when no line starts with the tick-marker
text, and the newline-join of the suffix starting at the last marker line
otherwise; being a pure function it never mutates the log. -/
theorem get_latest_feed_spec (d : DirectorAgent) :
    (d.event_logs = [] → d.get_latest_feed = "No events logged yet.") ∧
    (d.event_logs ≠ [] → (∀ l ∈ d.event_logs, pyStartsWith l "--- Tick" = false) →
      d.get_latest_feed = String.intercalate "\n" d.event_logs) ∧
    (∀ (i : Nat) (h : i < d.event_logs.length),
      pyStartsWith (d.event_logs.get ⟨i, h⟩) "--- Tick" = true →
      (∀ (j : Nat) (hj : j < d.event_logs.length), i < j →
        pyStartsWith (d.event_logs.get ⟨j, hj⟩) "--- Tick" = false) →
      d.get_latest_feed = String.intercalate "\n" (d.event_logs.drop i)) := by
  refine ⟨?_, ?_, ?_⟩
  · intro h
    unfold DirectorAgent.get_latest_feed
    rw [if_pos h]
  · intro hne hnomark
    unfold DirectorAgent.get_latest_feed
    rw [if_neg hne, latestFrom_eq_none d.event_logs hnomark]
  · intro i h hmark hlater
    have hne : d.event_logs ≠ [] := by
      intro he
      rw [he] at h
      simp at h
    unfold DirectorAgent.get_latest_feed
    rw [if_neg hne, latestFrom_eq_drop d.event_logs i h hmark hlater]

/-- C5 witness: a log holding one marker line then one event line is
returned whole from the marker. -/
theorem get_latest_feed_spec_witness :
    pyStartsWith (["--- Tick 1 ---", "a"].get ⟨0, by decide⟩) "--- Tick" = true ∧
    ({ DirectorAgent.init "s" "l" "t" 0 (fun _ => (0, 0)) (fun _ => (0, 0)) with
        event_logs := ["--- Tick 1 ---", "a"] } : DirectorAgent).get_latest_feed =
      String.intercalate "\n" ["--- Tick 1 ---", "a"] := by
  refine ⟨by decide, ?_⟩
  have hlater : ∀ (j : Nat)
      (hj : j < ({ DirectorAgent.init "s" "l" "t" 0 (fun _ => (0, 0)) (fun _ => (0, 0)) with
        event_logs := ["--- Tick 1 ---", "a"] } : DirectorAgent).event_logs.length),
      0 < j →
      pyStartsWith (({ DirectorAgent.init "s" "l" "t" 0 (fun _ => (0, 0)) (fun _ => (0, 0)) with
        event_logs := ["--- Tick 1 ---", "a"] } : DirectorAgent).event_logs.get ⟨j, hj⟩)
        "--- Tick" = false := by
    intro j hj hlt
    have hj2 : j < 2 := hj
    cases j with
    | zero => omega
    | succ jj =>
      cases jj with
      | zero =>
        show pyStartsWith "a" "--- Tick" = false
        decide
      | succ jjj => omega
  have h := (get_latest_feed_spec
    { DirectorAgent.init "s" "l" "t" 0 (fun _ => (0, 0)) (fun _ => (0, 0)) with
      event_logs := ["--- Tick 1 ---", "a"] }).2.2 0 (by decide) (by decide) hlater
  exact h

/-! ### C9: every command appends exactly one Director log entry -/

/-- C9: `receive_user_command` is total (never raises) and in every branch
appends exactly one entry to the Director's cumulative log, leaving the
earlier entries unchanged. -/
theorem receive_user_command_appends_one (d : DirectorAgent) (cmd : String) :
    ∃ entry : String,
      (d.receive_user_command cmd).event_logs = d.event_logs ++ [entry] := by
  unfold DirectorAgent.receive_user_command
  repeat' split
  all_goals exact ⟨_, rfl⟩

/-! ### C8: redirect naming red touches only the red force -/

/-- C8: a command containing both "redirect" and "red" (case-insensitive)
is routed to the red force only: each red subordinate's context gains
exactly one entry (which contains the order text verbatim), while the blue
force, the tick counter and the scenario metadata are untouched, and the
Director logs the red confirmation line. -/
theorem redirect_red_only_mutates_red (d : DirectorAgent) (cmd : String)
    (h1 : strContains (pyLower cmd) "redirect" = true)
    (h2 : strContains (pyLower cmd) "red" = true) :
    (d.receive_user_command cmd).blue_force = d.blue_force ∧
    (d.receive_user_command cmd).tick = d.tick ∧
    (d.receive_user_command cmd).scenario_name = d.scenario_name ∧
    (d.receive_user_command cmd).location = d.location ∧
    (d.receive_user_command cmd).situation = d.situation ∧
    (d.receive_user_command cmd).red_force.sub_agents =
      d.red_force.sub_agents.map (fun a =>
        { a with context := a.context ++ ["Received direct order: " ++ cmd] }) ∧
    strContains ("Received direct order: " ++ cmd) cmd = true ∧
    (d.receive_user_command cmd).event_logs =
      d.event_logs ++ ["Red Force received command: " ++ cmd] := by
  have hp : pyLower cmd ≠ "pause" := by
    intro he
    rw [he] at h1
    exact absurd h1 (by decide)
  have hw : pyLower cmd ≠ "rewind" := by
    intro he
    rw [he] at h1
    exact absurd h1 (by decide)
  have hf : pyLower cmd ≠ "fast forward" := by
    intro he
    rw [he] at h1
    exact absurd h1 (by decide)
  have hcontain : strContains ("Received direct order: " ++ cmd) cmd = true := by
    unfold strContains
    rw [String.data_append]
    exact charsHasSub_append_self _ _
  unfold DirectorAgent.receive_user_command
  rw [if_neg hp, if_neg hw, if_neg hf, if_pos h1, if_pos h2]
  exact ⟨rfl, rfl, rfl, rfl, rfl, rfl, hcontain, rfl⟩

/-- C8 witness: the spec's own example command on a fresh one-unit
Director. -/
theorem redirect_red_only_mutates_red_witness :
    strContains (pyLower "redirect red force: move to point A") "redirect" = true ∧
    strContains (pyLower "redirect red force: move to point A") "red" = true ∧
    ((DirectorAgent.init "S" "L" "T" 1 (fun _ => (0, 0)) (fun _ => (0, 0))).receive_user_command
        "redirect red force: move to point A").blue_force =
      (DirectorAgent.init "S" "L" "T" 1 (fun _ => (0, 0)) (fun _ => (0, 0))).blue_force ∧
    ((DirectorAgent.init "S" "L" "T" 1 (fun _ => (0, 0)) (fun _ => (0, 0))).receive_user_command
        "redirect red force: move to point A").red_force.sub_agents =
      (DirectorAgent.init "S" "L" "T" 1 (fun _ => (0, 0)) (fun _ => (0, 0))).red_force.sub_agents.map
        (fun a => { a with context := a.context ++
          ["Received direct order: " ++ "redirect red force: move to point A"] }) := by
  have h := redirect_red_only_mutates_red
    (DirectorAgent.init "S" "L" "T" 1 (fun _ => (0, 0)) (fun _ => (0, 0)))
    "redirect red force: move to point A" (by decide) (by decide)
  exact ⟨by decide, by decide, h.1, h.2.2.2.2.2.1⟩

/-! ### C1: a redirect naming neither side is still routed to red -/

/-- C1 (code bug evidence): the command "redirect to nowhere" names neither
side, yet because "red" is a substring of "redirect" the side test
succeeds and the order is routed to the red force; the Director logs the
red confirmation line, not the unreachable "Unrecognized redirection"
line, and every red subordinate's context receives the order. -/
theorem redirect_to_nowhere_routes_to_red :
    ((DirectorAgent.init "S" "L" "T" 1 (fun _ => (0, 0)) (fun _ => (0, 0))).receive_user_command
        "redirect to nowhere").event_logs =
      ["Red Force received command: redirect to nowhere"] ∧
    ((DirectorAgent.init "S" "L" "T" 1 (fun _ => (0, 0)) (fun _ => (0, 0))).receive_user_command
        "redirect to nowhere").red_force.sub_agents.map SubAgent.context =
      [["Received direct order: redirect to nowhere"]] ∧
    ((DirectorAgent.init "S" "L" "T" 1 (fun _ => (0, 0)) (fun _ => (0, 0))).receive_user_command
        "redirect to nowhere").red_force.event_logs =
      ["Red Leader received direct order: redirect to nowhere"] := by
  refine ⟨by decide, by decide, by decide⟩

/-! ### C7: the DDIL degrader -/

theorem splitNl_ne_nil : ∀ cs : List Char, splitNl cs ≠ [] := by
  intro cs
  induction cs with
  | nil => simp [splitNl]
  | cons c cs ih =>
    rw [splitNl]
    cases hcs : splitNl cs with
    | nil => simp
    | cons l ls => by_cases hc : c = '\n' <;> simp [hc]

theorem splitNl_cons (c : Char) (cs l : List Char) (ls : List (List Char))
    (hcs : splitNl cs = l :: ls) :
    splitNl (c :: cs) = if c = '\n' then [] :: l :: ls else (c :: l) :: ls := by
  rw [splitNl, hcs]

theorem joinNl_splitNl : ∀ cs : List Char, joinNlChars (splitNl cs) = cs := by
  intro cs
  induction cs with
  | nil => rfl
  | cons c cs ih =>
    cases hcs : splitNl cs with
    | nil => exact absurd hcs (splitNl_ne_nil cs)
    | cons l ls =>
      rw [hcs] at ih
      rw [splitNl_cons c cs l ls hcs]
      by_cases hc : c = '\n'
      · subst hc
        rw [if_pos rfl]
        show [] ++ '\n' :: joinNlChars (l :: ls) = '\n' :: cs
        rw [ih]
        rfl
      · rw [if_neg hc]
        cases ls with
        | nil =>
          show c :: l = c :: cs
          rw [← ih]
          rfl
        | cons l2 ls2 =>
          show (c :: l) ++ '\n' :: joinNlChars (l2 :: ls2) = c :: cs
          rw [← ih]
          rfl

theorem processLines_id (p : ℚ) (rng : Nat → ℚ) (hp : p ≤ 0) (hr : ∀ i, 0 ≤ rng i) :
    ∀ (lines : List (List Char)) (i : Nat), processLines p rng lines i = lines := by
  intro lines
  induction lines with
  | nil => intro i; rfl
  | cons l ls ih =>
    intro i
    rw [processLines]
    rw [if_neg (not_lt.mpr (le_trans hp (hr i))),
      if_neg (not_lt.mpr (le_trans hp (hr (i + 1)))), ih]

theorem processLines_order (p : ℚ) (rng : Nat → ℚ) :
    ∀ (lines : List (List Char)) (i : Nat),
      ∃ kept : List (List Char), kept.Sublist lines ∧
        List.Forall₂ (fun l o => o = l ∨ o = obfuscateLine l) kept
          (processLines p rng lines i) := by
  intro lines
  induction lines with
  | nil => intro i; exact ⟨[], List.Sublist.refl [], List.Forall₂.nil⟩
  | cons l ls ih =>
    intro i
    rw [processLines]
    by_cases h1 : rng i < p
    · obtain ⟨kept, hsub, hrel⟩ := ih (i + 1)
      rw [if_pos h1]
      exact ⟨kept, hsub.cons l, hrel⟩
    · obtain ⟨kept, hsub, hrel⟩ := ih (i + 2)
      rw [if_neg h1]
      refine ⟨l :: kept, hsub.cons₂ l, List.Forall₂.cons ?_ hrel⟩
      by_cases h2 : rng (i + 1) < p
      · rw [if_pos h2]
        exact Or.inr rfl
      · rw [if_neg h2]
        exact Or.inl rfl

theorem drop_probability_nonpos (level : ℤ) (h : level ≤ 0) :
    drop_probability level ≤ 0 := by
  have hl : (level : ℚ) ≤ 0 := by exact_mod_cast h
  have hmul : (level : ℚ) * (1 / 10) ≤ 0 := by nlinarith
  exact le_trans (min_le_left _ _) hmul

theorem drop_probability_saturates (level : ℤ) (h : 5 ≤ level) :
    drop_probability level = 1 / 2 := by
  have hl : (5 : ℚ) ≤ (level : ℚ) := by exact_mod_cast h
  rw [drop_probability, min_eq_right]
  linarith

/-- C7: the degrader's probability is min(level/10, 1/2); at level at most
0 the output equals the input for every nonnegative random stream (nothing
dropped, nothing redacted); at level at least 5 the probability is exactly
1/2; the surviving lines are a subsequence of the input lines in original
order, each kept verbatim or redacted; redaction keeps tokens shorter than
5 characters and replaces all others with the fixed token. -/
theorem process_feed_ddil_spec :
    (∀ (level : ℤ) (rng : Nat → ℚ) (raw : String), level ≤ 0 → (∀ i, 0 ≤ rng i) →
      process_feed level rng raw = raw) ∧
    (∀ level : ℤ, 5 ≤ level → drop_probability level = 1 / 2) ∧
    (∀ (level : ℤ) (rng : Nat → ℚ) (raw : String),
      ∃ kept : List (List Char), kept.Sublist (splitNl raw.data) ∧
        List.Forall₂ (fun l o => o = l ∨ o = obfuscateLine l) kept
          (processLines (drop_probability level) rng (splitNl raw.data) 0)) ∧
    (∀ l : List Char, obfuscateLine l = joinSpace ((wsTokens l).map (fun word =>
      if word.length < 5 then word else ['?', '?', '?']))) := by
  refine ⟨?_, drop_probability_saturates, ?_, fun l => rfl⟩
  · intro level rng raw hlev hrng
    unfold process_feed
    rw [processLines_id _ _ (drop_probability_nonpos level hlev) hrng, joinNl_splitNl]
  · intro level rng raw
    exact processLines_order _ _ _ _

/-- C7 witness: level 0 leaves a concrete feed untouched for a concrete
nonnegative random stream, and level 5 saturates the probability at 1/2. -/
theorem process_feed_ddil_spec_witness :
    (0 : ℤ) ≤ 0 ∧ (∀ i : Nat, (0 : ℚ) ≤ (fun _ : Nat => (1 : ℚ) / 2) i) ∧
    process_feed 0 (fun _ : Nat => (1 : ℚ) / 2) "ab cd" = "ab cd" ∧
    (5 : ℤ) ≤ 5 ∧ drop_probability 5 = 1 / 2 := by
  refine ⟨le_refl 0, fun i => by norm_num, ?_, le_refl 5, ?_⟩
  · exact process_feed_ddil_spec.1 0 (fun _ => (1 : ℚ) / 2) "ab cd" (le_refl 0)
      (fun i => by norm_num)
  · exact process_feed_ddil_spec.2.1 5 (le_refl 5)

/-- C10: the status field is "Ready" at construction and is invariant under
`process_tick` and `update_context` (the only mutating operations). -/
theorem sub_agent_status_invariant (id role : String) (px py : Int) (a : SubAgent)
    (llm : Except String String) (delta : Int) (m : String) :
    (SubAgent.init id role px py).status = "Ready" ∧
    (a.process_tick llm delta).1.status = a.status ∧
    (a.update_context m).status = a.status := by
  refine ⟨rfl, ?_, rfl⟩
  unfold SubAgent.process_tick
  split
  · rfl
  · rfl
